import Mathlib

/-!
Verification development for the gowaves repository fragment consisting of
`pkg/api/app.go` (the HTTP administration application: construction, admin
transaction broadcast, wallet key loading, account listing, API-key
authentication) and the L2 blockchain-info protobuf schema
(`BlockInfo` / `L2ContractDataEntries` wire messages).

Pure functions of the Go source are embedded as Lean functions; the
channel/select based control flow of `TransactionsBroadcast` is embedded by
making the outcome of each `select` statement an explicit event parameter
(which branch of the select fired), and a call that blocks forever (no select
branch ever becomes ready) is represented by the result `none`.

Collaborator functions that live in the repository but outside the provided
sources (the `proto` parsers, `crypto.SecureHash`, key-pair generation,
address derivation, the wallet) are abstract function parameters, except
where a claim needs their spec-described behaviour, in which case a
definition explicitly marked `Modelled from the spec:` is introduced.
-/

/-! ### L2 feed wire schema (src/unnamed/part_000, proto3) -/

/-- A protobuf message field: its name and its wire field number. -/
structure ProtoField where
  name : String
  number : Nat
deriving DecidableEq, Repr

/-- Fields of `message BlockInfo` exactly as declared in the proto file:
`uint64 Height = 1; bytes VRF = 2; bytes BlockID = 3;
waves.Block.Header BlockHeader = 4;`. -/
def BlockInfoFields : List ProtoField :=
  [⟨"Height", 1⟩, ⟨"VRF", 2⟩, ⟨"BlockID", 3⟩, ⟨"BlockHeader", 4⟩]

/-- Fields of `message L2ContractDataEntries` exactly as declared in the
proto file: `repeated waves.DataEntry DataEntries = 5; uint64 Height = 1;
bytes BlockID = 2;`. -/
def L2ContractDataEntriesFields : List ProtoField :=
  [⟨"DataEntries", 5⟩, ⟨"Height", 1⟩, ⟨"BlockID", 2⟩]

/-- Wire field number assigned to a named field of a message. -/
def fieldNumber (fs : List ProtoField) (n : String) : Option Nat :=
  (fs.find? (fun f => f.name == n)).map (fun f => f.number)

/-! ### Errors of the admin API surface (pkg/api/app.go)

Constructors mirror the construction sites of error values in the source:
`wrapToBadRequestError`, `wrapToAuthError`, `errors.Wrap(ctx.Err(), msg)`,
`errors.New("timeout waiting response from internal")`, `errors.Wrap`, and
errors relayed unmodified from collaborators (the internal reply channel,
the wallet). `internalError` is the remaining kind of the spec's admin
response taxonomy; no construction site in `app.go` produces it. -/
inductive ApiError where
  /-- Produced by `wrapToBadRequestError err`. -/
  | badRequest (msg : String)
  /-- Produced by `wrapToAuthError err`. -/
  | authFailed (msg : String)
  /-- The spec's `InternalError` response kind (not constructed in app.go). -/
  | internalError (msg : String)
  /-- Produced by `errors.Wrap(ctx.Err(), wrapMsg)`. -/
  | ctxCancelled (wrapMsg : String) (ctxErr : String)
  /-- Produced by `errors.New("timeout waiting response from internal")`. -/
  | timeoutWaiting
  /-- Produced by `errors.Wrap(err, wrapMsg)` for a non-context error. -/
  | wrapped (wrapMsg : String) (inner : String)
deriving DecidableEq, Repr

/-- Modelled from the spec: `wrapToBadRequestError` (an api-package helper
whose body is not among the provided sources) wraps an error into the
`BadRequest` admin response kind. -/
def wrapToBadRequestError (msg : String) : ApiError :=
  ApiError.badRequest msg

/-- Modelled from the spec: `wrapToAuthError` (an api-package helper whose
body is not among the provided sources) wraps an error into the
`AuthFailed` admin response kind. -/
def wrapToAuthError (msg : String) : ApiError :=
  ApiError.authFailed msg

/-- Whether an error value belongs to the four admin response kinds the
spec's external-interface section lists for the inbound admin broadcast:
`BadRequest`, `AuthFailed`, `Timeout`, `InternalError`. -/
def isAdminResponseKind : ApiError → Bool
  | ApiError.badRequest _ => true
  | ApiError.authFailed _ => true
  | ApiError.internalError _ => true
  | ApiError.timeoutWaiting => true
  | _ => false

/-! ### Transaction broadcast (App.TransactionsBroadcast) -/

/-- Embedding of `proto.TransactionTypeVersion`: the self-describing type+version tag
read from the head of a broadcast payload. -/
structure TransactionTypeVersion where
  txType : Nat
  version : Nat
deriving DecidableEq, Repr

/-- The message placed on the internal channel by
`messages.NewBroadcastTransaction(respCh, realType)`: the reply channel
(represented by its capacity, `make(chan error, 1)`) and the transaction. -/
structure BroadcastCommand (Tx : Type) where
  respChCapacity : Nat
  tx : Tx
deriving DecidableEq, Repr

/-- Outcome of the first `select` of `TransactionsBroadcast` (lines 103-107):
either the send on `a.services.InternalChannel` completed, or `ctx.Done()`
fired first, or neither ever became ready (channel never accepts, context
never cancelled) and the call blocks forever. -/
inductive EnqueueEvent where
  | sent
  | ctxDone (ctxErr : String)
  | blockedForever
deriving DecidableEq, Repr

/-- Outcome of the second `select` of `TransactionsBroadcast`
(lines 120-131): `ctx.Done()` fired, or the 5-second timer fired, or a
verdict arrived on `respCh` (`none` for a nil error, `some e` otherwise). -/
inductive WaitEvent where
  | ctxDone (ctxErr : String)
  | timerFired
  | reply (verdict : Option ApiError)
deriving DecidableEq, Repr

/-- The three `proto` package collaborators invoked by
`TransactionsBroadcast`; their bodies live outside the provided sources, so
they are abstract parameters. `unmarshalTransactionFromJSON` returns the
transaction it filled in place of mutating its third argument. -/
structure ProtoOps (Tx : Type) where
  unmarshalTypeVersion : List Nat → Except String TransactionTypeVersion
  guessTransactionType : TransactionTypeVersion → Except String Tx
  unmarshalTransactionFromJSON : List Nat → Nat → Tx → Except String Tx

/-- The reply deadline of `TransactionsBroadcast` in milliseconds:
`time.NewTimer(5 * time.Second)`. -/
def broadcastReplyTimeoutMillis : Nat := 5 * 1000

/-- The parsing prefix of `TransactionsBroadcast` (lines 85-99): unmarshal
the type+version tag, guess the concrete transaction variant, then unmarshal
the full payload under the given scheme. -/
def parseBroadcastPayload {Tx : Type} (ops : ProtoOps Tx) (scheme : Nat)
    (b : List Nat) : Except String Tx :=
  match ops.unmarshalTypeVersion b with
  | Except.error e => Except.error e
  | Except.ok tt =>
    match ops.guessTransactionType tt with
    | Except.error e => Except.error e
    | Except.ok realType => ops.unmarshalTransactionFromJSON b scheme realType

/-- Embedding of `App.TransactionsBroadcast` (lines 84-132). Returns the Go result
(`none` when the call never returns because no select branch ever fires)
paired with the command placed on the internal channel, if any. Parse
failures return `wrapToBadRequestError` before anything is sent; the send
select returns a wrap of `ctx.Err()` on cancellation; after a successful
send the wait select returns a wrap of `ctx.Err()`, the timeout error, or
the relayed verdict; a nil verdict returns the parsed transaction. -/
def TransactionsBroadcast {Tx : Type} (ops : ProtoOps Tx) (scheme : Nat)
    (b : List Nat) (enq : EnqueueEvent) (wait : WaitEvent) :
    Option (Except ApiError Tx) × Option (BroadcastCommand Tx) :=
  match ops.unmarshalTypeVersion b with
  | Except.error e => (some (Except.error (wrapToBadRequestError e)), none)
  | Except.ok tt =>
    match ops.guessTransactionType tt with
    | Except.error e => (some (Except.error (wrapToBadRequestError e)), none)
    | Except.ok realType =>
      match ops.unmarshalTransactionFromJSON b scheme realType with
      | Except.error e => (some (Except.error (wrapToBadRequestError e)), none)
      | Except.ok realTx =>
        match enq with
        | EnqueueEvent.ctxDone ce =>
          (some (Except.error (ApiError.ctxCancelled "failed to send internal" ce)), none)
        | EnqueueEvent.blockedForever => (none, none)
        | EnqueueEvent.sent =>
          match wait with
          | WaitEvent.ctxDone ce =>
            (some (Except.error (ApiError.ctxCancelled "ctx cancelled from client" ce)),
             some ⟨1, realTx⟩)
          | WaitEvent.timerFired =>
            (some (Except.error ApiError.timeoutWaiting), some ⟨1, realTx⟩)
          | WaitEvent.reply (some e) => (some (Except.error e), some ⟨1, realTx⟩)
          | WaitEvent.reply none => (some (Except.ok realTx), some ⟨1, realTx⟩)

/-- Observable node state around a broadcast call: the UTX pool, the chain,
and the contents of the applier's internal command queue. -/
structure NodeState (Tx : Type) where
  utxPool : List Tx
  chain : List Tx
  internalQueue : List (BroadcastCommand Tx)
deriving DecidableEq, Repr

/-- A broadcast call's effect on node state: the only state it touches is
the internal queue, which receives the sent command (if any); a stalled
applier performs no queue consumption, so the queue retains it. -/
def runBroadcast {Tx : Type} (ops : ProtoOps Tx) (scheme : Nat) (b : List Nat)
    (enq : EnqueueEvent) (wait : WaitEvent) (st : NodeState Tx) :
    Option (Except ApiError Tx) × NodeState Tx :=
  let r := TransactionsBroadcast ops scheme b enq wait
  (r.1, ⟨st.utxPool, st.chain, st.internalQueue ++ r.2.toList⟩)

/-! ### App construction and authentication (newApp, checkAuth, LoadKeys) -/

/-- Embedding of `App` (lines 47-57) restricted to the fields the provided sources read:
the digest of the construction-time API key, the enabled flag, and the
chain id byte `services.Scheme`. The remaining fields are opaque
collaborators (state, utx, peers, scheduler, settings) never inspected by
the embedded functions. -/
structure App where
  hashedApiKey : Nat
  apiKeyEnabled : Bool
  scheme : Nat
deriving DecidableEq, Repr

/-- Embedding of `newApp` (lines 63-82): hash the API key with `crypto.SecureHash`
(abstract parameter `secureHash`), fail if hashing fails, otherwise store
the digest and set `apiKeyEnabled := len(apiKey) > 0`. -/
def newApp (secureHash : String → Except String Nat) (apiKey : String)
    (scheme : Nat) : Except String App :=
  match secureHash apiKey with
  | Except.error e => Except.error e
  | Except.ok digest => Except.ok ⟨digest, decide (apiKey.length > 0), scheme⟩

/-- Embedding of `App.checkAuth` (lines 160-174): reject with `wrapToAuthError` when the
API key is disabled; hash the candidate key, wrapping a hash failure;
reject with `wrapToAuthError` when the digest differs from the stored one. -/
def checkAuth (secureHash : String → Except String Nat) (a : App)
    (key : String) : Except ApiError Unit :=
  if !a.apiKeyEnabled then
    Except.error (wrapToAuthError "api key disabled")
  else
    match secureHash key with
    | Except.error e =>
      Except.error (ApiError.wrapped "failed to calculate secure hash for API key" e)
    | Except.ok d =>
      if d ≠ a.hashedApiKey then Except.error (wrapToAuthError "invalid api key")
      else Except.ok ()

/-- Embedding of `App.LoadKeys` (lines 134-140): check authentication; only on success
call `services.Wallet.Load(password)` (abstract parameter `walletLoad`,
its error relayed unmodified). The boolean records whether the wallet was
touched. -/
def LoadKeys (secureHash : String → Except String Nat)
    (walletLoad : List Nat → Option ApiError) (a : App) (apiKey : String)
    (password : List Nat) : Except ApiError Unit × Bool :=
  match checkAuth secureHash a apiKey with
  | Except.error e => (Except.error e, false)
  | Except.ok _ =>
    match walletLoad password with
    | some e => (Except.error e, true)
    | none => (Except.ok (), true)

/-! ### Account listing (App.Accounts) -/

/-- The `account` JSON object (lines 20-23): a derived address paired with
the public key it was derived from. -/
structure account (Addr PK : Type) where
  address : Addr
  publicKey : PK
deriving DecidableEq, Repr

/-- Embedding of `App.Accounts` (lines 142-158): for each wallet seed in order, generate
a key pair (`crypto.GenerateKeyPair`, abstract parameter `gkp`, secret key
discarded) and derive the address from the public key under the configured
scheme (`proto.NewAddressFromPublicKey`, abstract parameter `nafpk`); the
first failure aborts the whole call with a wrapped error. -/
def Accounts {Seed PK Addr : Type} (gkp : Seed → Except String PK)
    (nafpk : Nat → PK → Except String Addr) (scheme : Nat) :
    List Seed → Except String (List (account Addr PK))
  | [] => Except.ok []
  | seed :: rest =>
    match gkp seed with
    | Except.error e => Except.error ("failed to generate key pair for seed: " ++ e)
    | Except.ok pk =>
      match nafpk scheme pk with
      | Except.error e =>
        Except.error ("failed to generate new address from public key: " ++ e)
      | Except.ok addr =>
        match Accounts gkp nafpk scheme rest with
        | Except.error e => Except.error e
        | Except.ok accs => Except.ok (⟨addr, pk⟩ :: accs)

/-! ### L2 feed emission (spec-modelled)

The block applier and L2 feed implementation are not among the provided
sources; only the wire schema is. The commit-step emission discipline is
modelled from the spec (section 4.4 step 5 and section 4.5): a commit step
truncates the canonical chain to the common-ancestor height `keep`, emitting
one `Rollback` record per undone height walking downward, then appends the
forward blocks, emitting exactly one `BlockInfo` record followed by one
`L2ContractDataEntries` record per block, in ascending height order. -/

/-- A record on the L2 feed: a `BlockInfo` message, an
`L2ContractDataEntries` message (each identified by its `(height, blockId)`
pair), or a `Rollback` notification. -/
inductive FeedRecord where
  | blockInfoRec (height : Nat) (blockId : Nat)
  | dataEntriesRec (height : Nat) (blockId : Nat)
  | rollbackRec (height : Nat)
deriving DecidableEq, Repr

/-- Modelled from the spec: a commit step of the block applier — truncate
the canonical chain to height `keep` (the latest common ancestor), then
append the blocks `forward`, which sit at heights `keep+1`, `keep+2`, …. -/
structure CommitStep where
  keep : Nat
  forward : List Nat
deriving DecidableEq, Repr

/-- Modelled from the spec: rollback notifications emitted when the tip
regresses from height `tip` to height `keep`: `Rollback(tip-1), …,
Rollback(keep)`, one per intermediate tip height, walking downward. -/
def rollbackRecords (tip keep : Nat) : List FeedRecord :=
  (List.range (tip - keep)).map (fun i => FeedRecord.rollbackRec (tip - 1 - i))

/-- Modelled from the spec: forward emission — for each appended block, one
`BlockInfo` record immediately followed by one `L2ContractDataEntries`
record carrying the same `(height, blockId)`, heights ascending from
`keep + 1`. -/
def forwardRecords (keep : Nat) : List Nat → List FeedRecord
  | [] => []
  | bid :: rest =>
    FeedRecord.blockInfoRec (keep + 1) bid ::
      FeedRecord.dataEntriesRec (keep + 1) bid :: forwardRecords (keep + 1) rest

/-- Modelled from the spec: all records a commit step appends to the feed —
rollback notifications first, then the forward records. -/
def stepRecords (tip : Nat) (s : CommitStep) : List FeedRecord :=
  rollbackRecords tip s.keep ++ forwardRecords s.keep s.forward

/-- The `(height, blockId)` pairs of the `BlockInfo` records of a feed
fragment, in emission order. -/
def blockInfosOf : List FeedRecord → List (Nat × Nat)
  | [] => []
  | FeedRecord.blockInfoRec h bid :: rest => (h, bid) :: blockInfosOf rest
  | _ :: rest => blockInfosOf rest

/-- The `(height, blockId)` pairs of the `L2ContractDataEntries` records of
a feed fragment, in emission order. -/
def dataEntriesOf : List FeedRecord → List (Nat × Nat)
  | [] => []
  | FeedRecord.dataEntriesRec h bid :: rest => (h, bid) :: dataEntriesOf rest
  | _ :: rest => dataEntriesOf rest

/-- The committed blocks of a commit step as `(height, blockId)` pairs:
block `i` of `forward` sits at height `keep + 1 + i`. `committedOf k bids`
enumerates `bids` with heights `k, k+1, …`. -/
def committedOf (k : Nat) : List Nat → List (Nat × Nat)
  | [] => []
  | bid :: rest => (k, bid) :: committedOf (k + 1) rest

/-! ### Concrete instances used to evaluate the embedding -/

/-- A concrete proto-ops instance over `Tx := Nat` whose three parsers all
succeed: the tag parses to type 4 version 2, the guessed variant is the
empty transaction `0`, and the scheme-aware unmarshal fills it to `7`. -/
def okOps : ProtoOps Nat :=
  ⟨fun _ => Except.ok ⟨4, 2⟩, fun _ => Except.ok 0, fun _ _ _ => Except.ok 7⟩

/-- A concrete proto-ops instance whose type+version tag parse fails. -/
def badJsonOps : ProtoOps Nat :=
  ⟨fun _ => Except.error "invalid json", fun _ => Except.ok 0,
   fun _ _ _ => Except.ok 7⟩

/-- A concrete secure-hash instance: the digest of a key is its length. -/
def lenHash : String → Except String Nat := fun s => Except.ok s.length

/-! ### Helper lemmas on the broadcast embedding -/

/-- The select section of `TransactionsBroadcast` (lines 101-131) after a
successful parse, as a function of the parsed transaction and the two
select outcomes. -/
def broadcastSelects {Tx : Type} (realTx : Tx) (enq : EnqueueEvent)
    (wait : WaitEvent) :
    Option (Except ApiError Tx) × Option (BroadcastCommand Tx) :=
  match enq with
  | EnqueueEvent.ctxDone ce =>
    (some (Except.error (ApiError.ctxCancelled "failed to send internal" ce)), none)
  | EnqueueEvent.blockedForever => (none, none)
  | EnqueueEvent.sent =>
    match wait with
    | WaitEvent.ctxDone ce =>
      (some (Except.error (ApiError.ctxCancelled "ctx cancelled from client" ce)),
       some ⟨1, realTx⟩)
    | WaitEvent.timerFired =>
      (some (Except.error ApiError.timeoutWaiting), some ⟨1, realTx⟩)
    | WaitEvent.reply (some e) => (some (Except.error e), some ⟨1, realTx⟩)
    | WaitEvent.reply none => (some (Except.ok realTx), some ⟨1, realTx⟩)

/-- Factorization of `TransactionsBroadcast`: the parsing prefix decides
between an immediate `BadRequest` (nothing sent) and the select section. -/
theorem TransactionsBroadcast_eq {Tx : Type} (ops : ProtoOps Tx) (scheme : Nat)
    (b : List Nat) (enq : EnqueueEvent) (wait : WaitEvent) :
    TransactionsBroadcast ops scheme b enq wait =
      (match parseBroadcastPayload ops scheme b with
       | Except.error e => (some (Except.error (ApiError.badRequest e)), none)
       | Except.ok realTx => broadcastSelects realTx enq wait) := by
  cases h1 : ops.unmarshalTypeVersion b with
  | error e =>
    simp [TransactionsBroadcast, parseBroadcastPayload, wrapToBadRequestError, h1]
  | ok tt =>
    cases h2 : ops.guessTransactionType tt with
    | error e =>
      simp [TransactionsBroadcast, parseBroadcastPayload, wrapToBadRequestError, h1, h2]
    | ok rt =>
      cases h3 : ops.unmarshalTransactionFromJSON b scheme rt with
      | error e =>
        simp [TransactionsBroadcast, parseBroadcastPayload, wrapToBadRequestError,
          h1, h2, h3]
      | ok tx =>
        simp [TransactionsBroadcast, parseBroadcastPayload, broadcastSelects,
          h1, h2, h3]

/-- A parse failure yields `BadRequest` with nothing sent on the internal
channel, whatever the select outcomes would have been. -/
theorem broadcast_of_parse_error {Tx : Type} (ops : ProtoOps Tx) (scheme : Nat)
    (b : List Nat) (enq : EnqueueEvent) (wait : WaitEvent) (e : String)
    (h : parseBroadcastPayload ops scheme b = Except.error e) :
    TransactionsBroadcast ops scheme b enq wait =
      (some (Except.error (ApiError.badRequest e)), none) := by
  rw [TransactionsBroadcast_eq, h]

/-- A successful parse reduces `TransactionsBroadcast` to its select
section applied to the parsed transaction. -/
theorem broadcast_of_parse_ok {Tx : Type} (ops : ProtoOps Tx) (scheme : Nat)
    (b : List Nat) (enq : EnqueueEvent) (wait : WaitEvent) (realTx : Tx)
    (h : parseBroadcastPayload ops scheme b = Except.ok realTx) :
    TransactionsBroadcast ops scheme b enq wait = broadcastSelects realTx enq wait := by
  rw [TransactionsBroadcast_eq, h]

/-! ### Claim C2 -/

/-- C2: the L2 feed wire messages carry exactly the field numbers the spec
fixes — `BlockInfo` has `Height = 1`, `VRF = 2`, `BlockID = 3`,
`BlockHeader = 4`, and `L2ContractDataEntries` has `Height = 1`,
`BlockID = 2`, `DataEntries = 5` — and no further fields. -/
theorem c2_l2_field_numbers :
    fieldNumber BlockInfoFields "Height" = some 1 ∧
    fieldNumber BlockInfoFields "VRF" = some 2 ∧
    fieldNumber BlockInfoFields "BlockID" = some 3 ∧
    fieldNumber BlockInfoFields "BlockHeader" = some 4 ∧
    fieldNumber L2ContractDataEntriesFields "Height" = some 1 ∧
    fieldNumber L2ContractDataEntriesFields "BlockID" = some 2 ∧
    fieldNumber L2ContractDataEntriesFields "DataEntries" = some 5 ∧
    BlockInfoFields.length = 4 ∧ L2ContractDataEntriesFields.length = 3 := by
  decide

/-! ### Claim C1 -/

/-- C1 counterexample: an admin broadcast whose command the internal channel
never accepts (the stalled applier's bounded queue no longer takes commands)
and whose caller never cancels receives no verdict — yet the caller does not
receive the Timeout error after 5 seconds: the call blocks forever in the
first select, because the reply timer is created only after a successful
send. -/
theorem c1_counterexample_enqueue_blocks :
    TransactionsBroadcast okOps 87 [0] EnqueueEvent.blockedForever
      WaitEvent.timerFired = (none, none) ∧
    (TransactionsBroadcast okOps 87 [0] EnqueueEvent.blockedForever
      WaitEvent.timerFired).1 ≠ some (Except.error ApiError.timeoutWaiting) :=
  ⟨rfl, fun h => Option.noConfusion h⟩

/-- C1 (amended): once the broadcast command has been enqueued on the
internal channel and the caller does not cancel, a missing verdict makes the
reply timer fire and the caller receives the timeout error after the fixed
5-second (5000 ms) deadline; the broadcast leaves the UTX pool and the chain
unchanged — only the internal queue, which a stalled applier does not
consume, retains the command. The enqueue select itself is not covered by
the deadline: while the internal channel never accepts the command the call
blocks without any timeout (see the counterexample). -/
theorem c1_timeout_after_enqueue {Tx : Type} (ops : ProtoOps Tx) (scheme : Nat)
    (b : List Nat) (realTx : Tx) (st : NodeState Tx)
    (h : parseBroadcastPayload ops scheme b = Except.ok realTx) :
    runBroadcast ops scheme b EnqueueEvent.sent WaitEvent.timerFired st =
      (some (Except.error ApiError.timeoutWaiting),
       ⟨st.utxPool, st.chain, st.internalQueue ++ [⟨1, realTx⟩]⟩) ∧
    broadcastReplyTimeoutMillis = 5 * 1000 := by
  refine ⟨?_, rfl⟩
  simp only [runBroadcast,
    broadcast_of_parse_ok ops scheme b EnqueueEvent.sent WaitEvent.timerFired realTx h]
  rfl

/-- Witness for the amended C1 at a concrete input. -/
theorem c1_timeout_after_enqueue_witness :
    runBroadcast okOps 87 [0] EnqueueEvent.sent WaitEvent.timerFired
      (⟨[5], [6], []⟩ : NodeState Nat) =
      (some (Except.error ApiError.timeoutWaiting), ⟨[5], [6], [⟨1, 7⟩]⟩) ∧
    broadcastReplyTimeoutMillis = 5 * 1000 :=
  c1_timeout_after_enqueue okOps 87 [0] 7 ⟨[5], [6], []⟩ rfl

/-! ### Claim C3 -/

/-- C3 counterexample: a well-formed payload whose enqueue select is won by
the caller's context cancellation makes `TransactionsBroadcast` return an
error that wraps the context error — a value that is none of the four admin
response kinds `BadRequest`, `AuthFailed`, `Timeout`, `InternalError`. -/
theorem c3_counterexample_outside_taxonomy :
    (TransactionsBroadcast okOps 87 [0] (EnqueueEvent.ctxDone "context canceled")
        WaitEvent.timerFired).1 =
      some (Except.error
        (ApiError.ctxCancelled "failed to send internal" "context canceled")) ∧
    isAdminResponseKind
      (ApiError.ctxCancelled "failed to send internal" "context canceled") = false :=
  ⟨rfl, rfl⟩

/-- C3 (amended): `TransactionsBroadcast` identifies the concrete variant
from the type+version tag and either never returns (enqueue blocked), or
returns the typed transaction on acceptance, or returns exactly one of:
`BadRequest` — produced by any failure of JSON tag parsing, type guessing or
scheme-aware unmarshalling, before anything reaches the internal channel; an
error wrapping the caller's context error (cancellation); the timeout error;
or the verdict error relayed unmodified from the reply channel. `AuthFailed`
and `InternalError` are never produced by this function. -/
theorem c3_broadcast_response_classification {Tx : Type} (ops : ProtoOps Tx)
    (scheme : Nat) (b : List Nat) (enq : EnqueueEvent) (wait : WaitEvent) :
    (TransactionsBroadcast ops scheme b enq wait = (none, none)) ∨
    (∃ tx, TransactionsBroadcast ops scheme b enq wait =
        (some (Except.ok tx), some ⟨1, tx⟩) ∧
      parseBroadcastPayload ops scheme b = Except.ok tx) ∨
    (∃ e, TransactionsBroadcast ops scheme b enq wait =
        (some (Except.error (ApiError.badRequest e)), none) ∧
      parseBroadcastPayload ops scheme b = Except.error e) ∨
    (∃ m ce, (TransactionsBroadcast ops scheme b enq wait).1 =
        some (Except.error (ApiError.ctxCancelled m ce))) ∨
    ((TransactionsBroadcast ops scheme b enq wait).1 =
        some (Except.error ApiError.timeoutWaiting)) ∨
    (∃ e, wait = WaitEvent.reply (some e) ∧
      (TransactionsBroadcast ops scheme b enq wait).1 = some (Except.error e)) := by
  simp only [TransactionsBroadcast_eq]
  cases h : parseBroadcastPayload ops scheme b with
  | error e => exact Or.inr (Or.inr (Or.inl ⟨e, rfl, rfl⟩))
  | ok tx =>
    cases enq with
    | ctxDone ce =>
      exact Or.inr (Or.inr (Or.inr (Or.inl ⟨"failed to send internal", ce, rfl⟩)))
    | blockedForever => exact Or.inl rfl
    | sent =>
      cases wait with
      | ctxDone ce =>
        exact Or.inr (Or.inr (Or.inr (Or.inl ⟨"ctx cancelled from client", ce, rfl⟩)))
      | timerFired => exact Or.inr (Or.inr (Or.inr (Or.inr (Or.inl rfl))))
      | reply v =>
        cases v with
        | none => exact Or.inr (Or.inl ⟨tx, rfl, rfl⟩)
        | some e =>
          exact Or.inr (Or.inr (Or.inr (Or.inr (Or.inr ⟨e, rfl, rfl⟩))))

/-! ### Claim C4 -/

/-- C4: an admin broadcast is bound to the caller's cancellation signal —
when the caller's context is cancelled while waiting to enqueue the command,
the call abandons the operation (nothing is sent) and returns the wrap
`failed to send internal` of the context's error; when cancelled while
awaiting the verdict reply, it returns the wrap `ctx cancelled from client`
of the context's error. -/
theorem c4_ctx_cancellation {Tx : Type} (ops : ProtoOps Tx) (scheme : Nat)
    (b : List Nat) (realTx : Tx) (ce : String) (wait : WaitEvent)
    (h : parseBroadcastPayload ops scheme b = Except.ok realTx) :
    TransactionsBroadcast ops scheme b (EnqueueEvent.ctxDone ce) wait =
      (some (Except.error (ApiError.ctxCancelled "failed to send internal" ce)),
       none) ∧
    TransactionsBroadcast ops scheme b EnqueueEvent.sent (WaitEvent.ctxDone ce) =
      (some (Except.error (ApiError.ctxCancelled "ctx cancelled from client" ce)),
       some ⟨1, realTx⟩) := by
  refine ⟨?_, ?_⟩ <;>
    rw [broadcast_of_parse_ok _ _ _ _ _ _ h] <;> rfl

/-- Witness for C4 at a concrete input. -/
theorem c4_ctx_cancellation_witness :
    TransactionsBroadcast okOps 87 [0] (EnqueueEvent.ctxDone "context canceled")
        WaitEvent.timerFired =
      (some (Except.error
        (ApiError.ctxCancelled "failed to send internal" "context canceled")),
       none) ∧
    TransactionsBroadcast okOps 87 [0] EnqueueEvent.sent
        (WaitEvent.ctxDone "context canceled") =
      (some (Except.error
        (ApiError.ctxCancelled "ctx cancelled from client" "context canceled")),
       some ⟨1, 7⟩) :=
  c4_ctx_cancellation okOps 87 [0] 7 "context canceled" WaitEvent.timerFired rfl

/-! ### Claim C5 -/

/-- C5: input errors are rejected at the boundary with a stable reason code
and no state change — a malformed broadcast payload returns `BadRequest`
with the node state (UTX pool, chain, internal queue) untouched, before any
message is sent to the internal channel; a failed authentication in
`LoadKeys` returns the authentication error with the wallet untouched. -/
theorem c5_boundary_rejection {Tx : Type} (ops : ProtoOps Tx) (scheme : Nat)
    (b : List Nat) (enq : EnqueueEvent) (wait : WaitEvent) (e : String)
    (st : NodeState Tx) (secureHash : String → Except String Nat)
    (walletLoad : List Nat → Option ApiError) (a : App) (key : String)
    (pw : List Nat) (ae : ApiError)
    (hbad : parseBroadcastPayload ops scheme b = Except.error e)
    (hauth : checkAuth secureHash a key = Except.error ae) :
    runBroadcast ops scheme b enq wait st =
      (some (Except.error (ApiError.badRequest e)), st) ∧
    LoadKeys secureHash walletLoad a key pw = (Except.error ae, false) := by
  constructor
  · simp only [runBroadcast, broadcast_of_parse_error ops scheme b enq wait e hbad,
      Option.toList_none, List.append_nil]
  · simp only [LoadKeys, hauth]

/-- Witness for C5 at concrete inputs: a payload whose JSON tag parse fails,
and an app constructed with authentication disabled. -/
theorem c5_boundary_rejection_witness :
    runBroadcast badJsonOps 87 [0] EnqueueEvent.sent WaitEvent.timerFired
      (⟨[5], [6], []⟩ : NodeState Nat) =
      (some (Except.error (ApiError.badRequest "invalid json")), ⟨[5], [6], []⟩) ∧
    LoadKeys lenHash (fun _ => none) ⟨0, false, 87⟩ "key" [1] =
      (Except.error (ApiError.authFailed "api key disabled"), false) :=
  c5_boundary_rejection badJsonOps 87 [0] EnqueueEvent.sent WaitEvent.timerFired
    "invalid json" ⟨[5], [6], []⟩ lenHash (fun _ => none) ⟨0, false, 87⟩ "key" [1]
    (ApiError.authFailed "api key disabled") rfl rfl

/-! ### Claim C10 -/

/-- C10: every command that `TransactionsBroadcast` places on the internal
channel carries a reply channel of capacity one together with a transaction
successfully unmarshalled from the caller's payload under the configured
scheme; a payload failing any parse stage never reaches the internal
queue. -/
theorem c10_internal_commands_wellformed {Tx : Type} (ops : ProtoOps Tx)
    (scheme : Nat) (b : List Nat) (enq : EnqueueEvent) (wait : WaitEvent) :
    (∀ cmd : BroadcastCommand Tx,
       (TransactionsBroadcast ops scheme b enq wait).2 = some cmd →
       cmd.respChCapacity = 1 ∧
       parseBroadcastPayload ops scheme b = Except.ok cmd.tx) ∧
    (∀ e, parseBroadcastPayload ops scheme b = Except.error e →
       (TransactionsBroadcast ops scheme b enq wait).2 = none) := by
  constructor
  · intro cmd hcmd
    rw [TransactionsBroadcast_eq] at hcmd
    cases h : parseBroadcastPayload ops scheme b with
    | error e => rw [h] at hcmd; exact Option.noConfusion hcmd
    | ok tx =>
      rw [h] at hcmd
      have hsel : (broadcastSelects tx enq wait).2 = none ∨
          (broadcastSelects tx enq wait).2 = some ⟨1, tx⟩ := by
        cases enq with
        | ctxDone ce => exact Or.inl rfl
        | blockedForever => exact Or.inl rfl
        | sent =>
          cases wait with
          | ctxDone ce => exact Or.inr rfl
          | timerFired => exact Or.inr rfl
          | reply v => cases v with
            | none => exact Or.inr rfl
            | some e => exact Or.inr rfl
      cases hsel with
      | inl hnone => rw [hnone] at hcmd; exact Option.noConfusion hcmd
      | inr hsome =>
        rw [hsome] at hcmd
        have : (⟨1, tx⟩ : BroadcastCommand Tx) = cmd := Option.some.inj hcmd
        exact this ▸ ⟨rfl, rfl⟩
  · intro e he
    rw [TransactionsBroadcast_eq, he]

/-- Witness for C10 at concrete inputs. -/
theorem c10_internal_commands_wellformed_witness :
    ((⟨1, 7⟩ : BroadcastCommand Nat).respChCapacity = 1 ∧
      parseBroadcastPayload okOps 87 [0] =
        Except.ok (⟨1, 7⟩ : BroadcastCommand Nat).tx) ∧
    (TransactionsBroadcast badJsonOps 87 [0] EnqueueEvent.sent
      WaitEvent.timerFired).2 = none :=
  ⟨(c10_internal_commands_wellformed okOps 87 [0] EnqueueEvent.sent
      (WaitEvent.reply none)).1 ⟨1, 7⟩ rfl,
   (c10_internal_commands_wellformed badJsonOps 87 [0] EnqueueEvent.sent
      WaitEvent.timerFired).2 "invalid json" rfl⟩

/-! ### Claim C8 -/

/-- C8: an `App` constructed with the empty API key has `apiKeyEnabled =
false`; on such a node `checkAuth` rejects every candidate key (including
the empty string, whose hash would match the stored digest) and `LoadKeys`
always fails with an auth error without touching the wallet; in general a
`checkAuth` success requires a non-empty construction-time key and a
candidate whose secure hash equals the stored digest. -/
theorem c8_api_key_auth (secureHash : String → Except String Nat)
    (walletLoad : List Nat → Option ApiError) (scheme : Nat) (a : App)
    (hN : newApp secureHash "" scheme = Except.ok a) :
    a.apiKeyEnabled = false ∧
    (∀ key, checkAuth secureHash a key =
       Except.error (ApiError.authFailed "api key disabled")) ∧
    (∀ key pw, LoadKeys secureHash walletLoad a key pw =
       (Except.error (ApiError.authFailed "api key disabled"), false)) ∧
    (∀ apiKey a2 key, newApp secureHash apiKey scheme = Except.ok a2 →
       checkAuth secureHash a2 key = Except.ok () →
       apiKey.length > 0 ∧ secureHash key = Except.ok a2.hashedApiKey) := by
  have hmain : ∀ apiKey a2 key, newApp secureHash apiKey scheme = Except.ok a2 →
      checkAuth secureHash a2 key = Except.ok () →
      apiKey.length > 0 ∧ secureHash key = Except.ok a2.hashedApiKey := by
    intro apiKey a2 key hN2 hA
    cases hh2 : secureHash apiKey with
    | error e =>
      simp only [newApp, hh2] at hN2
      exact Except.noConfusion hN2
    | ok d2 =>
      simp only [newApp, hh2, Except.ok.injEq] at hN2
      subst hN2
      simp only [checkAuth] at hA
      split at hA
      · exact Except.noConfusion hA
      · rename_i hcond
        cases hk : secureHash key with
        | error e =>
          simp only [hk] at hA
          exact Except.noConfusion hA
        | ok dk =>
          simp only [hk] at hA
          by_cases hdd : dk = d2
          · subst hdd
            have hdec : decide (apiKey.length > 0) = true := by
              cases hq : decide (apiKey.length > 0) with
              | true => rfl
              | false => exact absurd (by rw [hq]; rfl) hcond
            exact ⟨of_decide_eq_true hdec, rfl⟩
          · rw [if_pos hdd] at hA
            exact Except.noConfusion hA
  cases hh : secureHash "" with
  | error e =>
    simp only [newApp, hh] at hN
    exact Except.noConfusion hN
  | ok d =>
    simp only [newApp, hh, Except.ok.injEq] at hN
    subst hN
    exact ⟨rfl, fun key => rfl, fun key pw => rfl, hmain⟩

/-- Witness for C8 at concrete inputs. -/
theorem c8_api_key_auth_witness :
    (⟨0, false, 5⟩ : App).apiKeyEnabled = false ∧
    checkAuth lenHash ⟨0, false, 5⟩ "" =
      Except.error (ApiError.authFailed "api key disabled") ∧
    LoadKeys lenHash (fun _ => none) ⟨0, false, 5⟩ "" [] =
      (Except.error (ApiError.authFailed "api key disabled"), false) ∧
    ("ab".length > 0 ∧ lenHash "cd" = Except.ok (⟨2, true, 5⟩ : App).hashedApiKey) :=
  have h := c8_api_key_auth lenHash (fun _ => none) 5 ⟨0, false, 5⟩ rfl
  ⟨h.1, h.2.1 "", h.2.2.1 "" [], h.2.2.2 "ab" ⟨2, true, 5⟩ "cd" rfl rfl⟩

/-! ### Claim C9 -/

/-- What it means for an individual wallet seed to fail account
construction: key-pair generation fails, or the generated public key's
address derivation fails. -/
def seedFails {Seed PK Addr : Type} (gkp : Seed → Except String PK)
    (nafpk : Nat → PK → Except String Addr) (scheme : Nat) (s : Seed) : Prop :=
  (∃ e, gkp s = Except.error e) ∨
  (∃ pk e, gkp s = Except.ok pk ∧ nafpk scheme pk = Except.error e)

/-- Helper: a successful `Accounts` call returns one account per seed, in
the seeds' order, each pairing the seed's generated public key with the
address derived from it under the given scheme. -/
theorem Accounts_ok_spec {Seed PK Addr : Type} (gkp : Seed → Except String PK)
    (nafpk : Nat → PK → Except String Addr) (scheme : Nat) :
    ∀ (seeds : List Seed) (l : List (account Addr PK)),
      Accounts gkp nafpk scheme seeds = Except.ok l →
      l.length = seeds.length ∧
      ∀ p ∈ seeds.zip l, ∃ pk, gkp p.1 = Except.ok pk ∧
        nafpk scheme pk = Except.ok p.2.address ∧ p.2.publicKey = pk := by
  intro seeds
  induction seeds with
  | nil =>
    intro l h
    simp only [Accounts] at h
    injection h with h
    subst h
    exact ⟨rfl, by intro p hp; simp at hp⟩
  | cons seed rest ih =>
    intro l h
    cases h1 : gkp seed with
    | error e =>
      simp only [Accounts, h1] at h
      exact Except.noConfusion h
    | ok pk =>
      cases h2 : nafpk scheme pk with
      | error e =>
        simp only [Accounts, h1, h2] at h
        exact Except.noConfusion h
      | ok addr =>
        cases h3 : Accounts gkp nafpk scheme rest with
        | error e =>
          simp only [Accounts, h1, h2, h3] at h
          exact Except.noConfusion h
        | ok accs =>
          simp only [Accounts, h1, h2, h3] at h
          injection h with h
          subst h
          obtain ⟨hlen, hpt⟩ := ih accs h3
          refine ⟨by simp [hlen], ?_⟩
          intro p hp
          simp only [List.zip_cons_cons, List.mem_cons] at hp
          cases hp with
          | inl hp => subst hp; exact ⟨pk, h1, h2, rfl⟩
          | inr hp => exact hpt p hp

/-- Helper: if any seed in the list fails key-pair generation or address
derivation, the whole `Accounts` call returns an error. -/
theorem Accounts_error_of_seedFails {Seed PK Addr : Type}
    (gkp : Seed → Except String PK) (nafpk : Nat → PK → Except String Addr)
    (scheme : Nat) :
    ∀ (seeds : List Seed) (s : Seed), s ∈ seeds →
      seedFails gkp nafpk scheme s →
      ∃ e, Accounts gkp nafpk scheme seeds = Except.error e := by
  intro seeds
  induction seeds with
  | nil => intro s hs; simp at hs
  | cons seed rest ih =>
    intro s hs hf
    cases h1 : gkp seed with
    | error e =>
      refine ⟨"failed to generate key pair for seed: " ++ e, ?_⟩
      simp only [Accounts, h1]
    | ok pk =>
      cases h2 : nafpk scheme pk with
      | error e =>
        refine ⟨"failed to generate new address from public key: " ++ e, ?_⟩
        simp only [Accounts, h1, h2]
      | ok addr =>
        rcases List.mem_cons.mp hs with hseq | hmem
        · subst hseq
          rcases hf with ⟨e, he⟩ | ⟨pk2, e, hpk2, hne⟩
          · rw [h1] at he; exact Except.noConfusion he
          · rw [h1] at hpk2
            injection hpk2 with hpk2
            subst hpk2
            rw [h2] at hne
            exact Except.noConfusion hne
        · obtain ⟨e, he⟩ := ih s hmem hf
          refine ⟨e, ?_⟩
          simp only [Accounts, h1, h2, he]

/-- C9: `Accounts` is all-or-nothing — on success it returns exactly one
account per wallet seed, in the seeds' order, each pairing the public key
generated from that seed with the address derived from that key under the
configured scheme; if generation or derivation fails for any seed, the call
returns an error and no partial account list. -/
theorem c9_accounts_all_or_nothing {Seed PK Addr : Type}
    (gkp : Seed → Except String PK) (nafpk : Nat → PK → Except String Addr)
    (scheme : Nat) (seeds : List Seed) :
    (∀ l, Accounts gkp nafpk scheme seeds = Except.ok l →
       l.length = seeds.length ∧
       ∀ p ∈ seeds.zip l, ∃ pk, gkp p.1 = Except.ok pk ∧
         nafpk scheme pk = Except.ok p.2.address ∧ p.2.publicKey = pk) ∧
    (∀ s ∈ seeds, seedFails gkp nafpk scheme s →
       ∃ e, Accounts gkp nafpk scheme seeds = Except.error e) :=
  ⟨fun l h => Accounts_ok_spec gkp nafpk scheme seeds l h,
   fun s hs hf => Accounts_error_of_seedFails gkp nafpk scheme seeds s hs hf⟩

/-- A concrete key-pair generator: the public key of a seed is the seed
plus one. -/
def cgkp : Nat → Except String Nat := fun s => Except.ok (s + 1)

/-- A concrete address deriver: the address folds the scheme byte into the
public key. -/
def cnafpk : Nat → Nat → Except String Nat :=
  fun sch pk => Except.ok (sch * 1000 + pk)

/-- Witness for C9 at concrete inputs. -/
theorem c9_accounts_all_or_nothing_witness :
    ([⟨87011, 11⟩, ⟨87021, 21⟩] : List (account Nat Nat)).length =
      [10, 20].length ∧
    ∀ p ∈ [10, 20].zip ([⟨87011, 11⟩, ⟨87021, 21⟩] : List (account Nat Nat)),
      ∃ pk, cgkp p.1 = Except.ok pk ∧ cnafpk 87 pk = Except.ok p.2.address ∧
        p.2.publicKey = pk :=
  (c9_accounts_all_or_nothing cgkp cnafpk 87 [10, 20]).1
    [⟨87011, 11⟩, ⟨87021, 21⟩] rfl

/-! ### Claim C6 -/

/-- Modelled from the spec: the data-model section says every transaction
variant carries an explicit chain id; only the fields the chain-id claim
needs are modelled here. -/
structure MTx where
  txType : Nat
  version : Nat
  chainId : Nat
deriving DecidableEq, Repr

/-- Modelled from the spec: `proto.UnmarshalTransactionFromJSON` is not
among the provided sources; per the spec's environment section, mismatched
chain ids cause transactions to be rejected, so scheme-aware decoding
succeeds only when the decoded transaction's chain id equals the configured
scheme. The underlying JSON decoding is the abstract parameter `decode`,
and the pre-allocated transaction argument is ignored because decoding
fills it. -/
def specUnmarshalFromJSON (decode : List Nat → Except String MTx)
    (b : List Nat) (scheme : Nat) (rt : MTx) : Except String MTx :=
  match decode b, rt with
  | Except.error e, _ => Except.error e
  | Except.ok tx, _ =>
    if tx.chainId = scheme then Except.ok tx
    else Except.error "invalid chain id"

/-- C6: the configured chain id byte enters every derived address and every
admin-boundary transaction deserialization — `TransactionsBroadcast`
unmarshals under the configured scheme, so (with the spec-modelled
unmarshaller) a payload decoding to a transaction with a mismatched chain
id is rejected as `BadRequest` with nothing sent on the internal channel;
and every account `Accounts` returns carries an address derived from its
public key under the configured scheme. -/
theorem c6_scheme_usage (utv : List Nat → Except String TransactionTypeVersion)
    (gtt : TransactionTypeVersion → Except String MTx)
    (decode : List Nat → Except String MTx) (scheme : Nat) (b : List Nat)
    (enq : EnqueueEvent) (wait : WaitEvent) (tx : MTx)
    (tt : TransactionTypeVersion) (rt : MTx)
    (hutv : utv b = Except.ok tt) (hgtt : gtt tt = Except.ok rt)
    (hdec : decode b = Except.ok tx) (hmis : tx.chainId ≠ scheme)
    {Seed PK Addr : Type} (gkp : Seed → Except String PK)
    (nafpk : Nat → PK → Except String Addr) (seeds : List Seed)
    (l : List (account Addr PK))
    (hacc : Accounts gkp nafpk scheme seeds = Except.ok l) :
    TransactionsBroadcast ⟨utv, gtt, specUnmarshalFromJSON decode⟩ scheme b
        enq wait =
      (some (Except.error (ApiError.badRequest "invalid chain id")), none) ∧
    ∀ p ∈ seeds.zip l, ∃ pk, gkp p.1 = Except.ok pk ∧
      nafpk scheme pk = Except.ok p.2.address := by
  have hparse : parseBroadcastPayload ⟨utv, gtt, specUnmarshalFromJSON decode⟩
      scheme b = Except.error "invalid chain id" := by
    simp only [parseBroadcastPayload, hutv, hgtt, specUnmarshalFromJSON, hdec,
      if_neg hmis]
  refine ⟨broadcast_of_parse_error _ _ _ _ _ _ hparse, ?_⟩
  intro p hp
  obtain ⟨pk, h1, h2, _⟩ := (Accounts_ok_spec gkp nafpk scheme seeds l hacc).2 p hp
  exact ⟨pk, h1, h2⟩

/-- A concrete type+version tag parser. -/
def cutv : List Nat → Except String TransactionTypeVersion :=
  fun _ => Except.ok ⟨4, 2⟩

/-- A concrete variant guesser returning an empty transaction. -/
def cgtt : TransactionTypeVersion → Except String MTx :=
  fun _ => Except.ok ⟨4, 2, 0⟩

/-- A concrete JSON decoder returning a transaction with chain id 88. -/
def cdecode : List Nat → Except String MTx := fun _ => Except.ok ⟨4, 2, 88⟩

/-- Witness for C6 at concrete inputs: scheme 87 against a transaction
carrying chain id 88. -/
theorem c6_scheme_usage_witness :
    TransactionsBroadcast ⟨cutv, cgtt, specUnmarshalFromJSON cdecode⟩ 87 [0]
        EnqueueEvent.sent WaitEvent.timerFired =
      (some (Except.error (ApiError.badRequest "invalid chain id")), none) ∧
    ∀ p ∈ [10, 20].zip ([⟨87011, 11⟩, ⟨87021, 21⟩] : List (account Nat Nat)),
      ∃ pk, cgkp p.1 = Except.ok pk ∧ cnafpk 87 pk = Except.ok p.2.address :=
  c6_scheme_usage cutv cgtt cdecode 87 [0] EnqueueEvent.sent WaitEvent.timerFired
    ⟨4, 2, 88⟩ ⟨4, 2⟩ ⟨4, 2, 0⟩ rfl rfl rfl (by decide) cgkp cnafpk [10, 20]
    [⟨87011, 11⟩, ⟨87021, 21⟩] rfl

/-! ### Claim C7 — helper lemmas on the feed emission model -/

/-- Helper: extracting `BlockInfo` pairs distributes over concatenation. -/
theorem blockInfosOf_append (l r : List FeedRecord) :
    blockInfosOf (l ++ r) = blockInfosOf l ++ blockInfosOf r := by
  induction l with
  | nil => rfl
  | cons x rest ih => cases x <;> simp [blockInfosOf, ih]

/-- Helper: extracting `L2ContractDataEntries` pairs distributes over
concatenation. -/
theorem dataEntriesOf_append (l r : List FeedRecord) :
    dataEntriesOf (l ++ r) = dataEntriesOf l ++ dataEntriesOf r := by
  induction l with
  | nil => rfl
  | cons x rest ih => cases x <;> simp [dataEntriesOf, ih]

/-- Helper: rollback notifications contain no `BlockInfo` records. -/
theorem blockInfosOf_rollback (tip keep : Nat) :
    blockInfosOf (rollbackRecords tip keep) = [] := by
  rw [rollbackRecords]
  induction List.range (tip - keep) with
  | nil => rfl
  | cons x rest ih => simp [blockInfosOf, ih]

/-- Helper: rollback notifications contain no `L2ContractDataEntries`
records. -/
theorem dataEntriesOf_rollback (tip keep : Nat) :
    dataEntriesOf (rollbackRecords tip keep) = [] := by
  rw [rollbackRecords]
  induction List.range (tip - keep) with
  | nil => rfl
  | cons x rest ih => simp [dataEntriesOf, ih]

/-- Helper: the `BlockInfo` pairs of the forward records are exactly the
committed `(height, blockId)` pairs, heights ascending from `keep + 1`. -/
theorem blockInfosOf_forward (f : List Nat) : ∀ keep,
    blockInfosOf (forwardRecords keep f) = committedOf (keep + 1) f := by
  induction f with
  | nil => intro keep; rfl
  | cons bid rest ih =>
    intro keep
    simp [forwardRecords, blockInfosOf, committedOf, ih (keep + 1)]

/-- Helper: the `L2ContractDataEntries` pairs of the forward records are
exactly the committed `(height, blockId)` pairs. -/
theorem dataEntriesOf_forward (f : List Nat) : ∀ keep,
    dataEntriesOf (forwardRecords keep f) = committedOf (keep + 1) f := by
  induction f with
  | nil => intro keep; rfl
  | cons bid rest ih =>
    intro keep
    simp [forwardRecords, dataEntriesOf, committedOf, ih (keep + 1)]

/-- Helper: every committed pair enumerated from `k` has height at least
`k`. -/
theorem mem_committedOf_le (f : List Nat) : ∀ (k : Nat) (p : Nat × Nat),
    p ∈ committedOf k f → k ≤ p.1 := by
  induction f with
  | nil => intro k p hp; simp [committedOf] at hp
  | cons bid rest ih =>
    intro k p hp
    simp only [committedOf, List.mem_cons] at hp
    rcases hp with h | h
    · subst h; exact le_refl k
    · exact Nat.le_of_succ_le (ih (k + 1) p h)

/-- Helper: committed pairs appear in strictly ascending height order. -/
theorem committedOf_pairwise (f : List Nat) : ∀ k,
    (committedOf k f).Pairwise (fun p q => p.1 < q.1) := by
  induction f with
  | nil => intro k; exact List.Pairwise.nil
  | cons bid rest ih =>
    intro k
    refine List.Pairwise.cons ?_ (ih (k + 1))
    intro q hq
    exact Nat.lt_of_succ_le (mem_committedOf_le rest (k + 1) q hq)

/-- Helper: forward records contain no rollback notification. -/
theorem rollback_not_mem_forward (f : List Nat) : ∀ keep h,
    FeedRecord.rollbackRec h ∉ forwardRecords keep f := by
  induction f with
  | nil => intro keep h hm; simp [forwardRecords] at hm
  | cons bid rest ih =>
    intro keep h hm
    simp only [forwardRecords, List.mem_cons] at hm
    rcases hm with h1 | h1 | h1
    · exact FeedRecord.noConfusion h1
    · exact FeedRecord.noConfusion h1
    · exact ih (keep + 1) h h1

/-- Helper: a rollback notification for height `h` is emitted exactly when
the tip regresses past `h`: `keep ≤ h < tip`. -/
theorem rollback_mem_rollbackRecords (tip keep h : Nat) :
    FeedRecord.rollbackRec h ∈ rollbackRecords tip keep ↔ keep ≤ h ∧ h < tip := by
  rw [rollbackRecords]
  simp only [List.mem_map, List.mem_range]
  constructor
  · rintro ⟨i, hi, he⟩
    injection he with he
    omega
  · rintro ⟨h1, h2⟩
    exact ⟨tip - 1 - h, by omega, by congr 1; omega⟩

/-- Helper: in a duplicate-free list every member has count one. -/
theorem count_one_of_nodup_mem {α : Type} [BEq α] [LawfulBEq α] :
    ∀ (l : List α) (p : α), l.Nodup → p ∈ l → l.count p = 1 := by
  intro l
  induction l with
  | nil => intro p _ hp; simp at hp
  | cons x rest ih =>
    intro p hnd hp
    obtain ⟨hx, hrest⟩ := List.nodup_cons.mp hnd
    rcases List.mem_cons.mp hp with he | hm
    · subst he
      rw [List.count_cons_self, List.count_eq_zero.mpr hx]
    · have hne : p ≠ x := fun h => hx (h ▸ hm)
      rw [List.count_cons_of_ne hne]
      exact ih p hrest hm

/-! ### Claim C7 -/

/-- C7 (spec-modelled): in a commit step of the applier from tip height
`tip` to common-ancestor height `keep` with forward blocks `forward`, the
feed gains exactly one `BlockInfo` record and exactly one
`L2ContractDataEntries` record per committed block, with identical
`(height, blockId)` pairs, in strictly ascending height order; a
`Rollback(h)` record is interleaved exactly where the canonical chain
regressed past height `h` (`keep ≤ h < tip`), and all rollback
notifications precede the forward records. -/
theorem c7_feed_emission (tip : Nat) (s : CommitStep) :
    blockInfosOf (stepRecords tip s) = committedOf (s.keep + 1) s.forward ∧
    dataEntriesOf (stepRecords tip s) = committedOf (s.keep + 1) s.forward ∧
    (committedOf (s.keep + 1) s.forward).Pairwise (fun p q => p.1 < q.1) ∧
    (∀ p ∈ committedOf (s.keep + 1) s.forward,
       (blockInfosOf (stepRecords tip s)).count p = 1 ∧
       (dataEntriesOf (stepRecords tip s)).count p = 1) ∧
    (∀ h, FeedRecord.rollbackRec h ∈ stepRecords tip s ↔ (s.keep ≤ h ∧ h < tip)) ∧
    stepRecords tip s = rollbackRecords tip s.keep ++ forwardRecords s.keep s.forward := by
  have hb : blockInfosOf (stepRecords tip s) = committedOf (s.keep + 1) s.forward := by
    rw [stepRecords, blockInfosOf_append, blockInfosOf_rollback, List.nil_append,
      blockInfosOf_forward]
  have hd : dataEntriesOf (stepRecords tip s) = committedOf (s.keep + 1) s.forward := by
    rw [stepRecords, dataEntriesOf_append, dataEntriesOf_rollback, List.nil_append,
      dataEntriesOf_forward]
  have hpw := committedOf_pairwise s.forward (s.keep + 1)
  have hnd : (committedOf (s.keep + 1) s.forward).Nodup := by
    refine hpw.imp ?_
    intro p q hlt heq
    rw [heq] at hlt
    exact lt_irrefl _ hlt
  refine ⟨hb, hd, hpw, ?_, ?_, rfl⟩
  · intro p hp
    rw [hb, hd]
    exact ⟨count_one_of_nodup_mem _ p hnd hp, count_one_of_nodup_mem _ p hnd hp⟩
  · intro h
    rw [stepRecords, List.mem_append]
    constructor
    · rintro (hm | hm)
      · exact (rollback_mem_rollbackRecords tip s.keep h).mp hm
      · exact absurd hm (rollback_not_mem_forward s.forward s.keep h)
    · intro hh
      exact Or.inl ((rollback_mem_rollbackRecords tip s.keep h).mpr hh)

/-- Witness for C7 at the spec's reorg scenario S2: tip at height 4,
common ancestor at height 2, forward blocks at heights 3, 4, 5. -/
theorem c7_feed_emission_witness :
    (blockInfosOf (stepRecords 4 ⟨2, [30, 40, 50]⟩)).count (3, 30) = 1 ∧
    (dataEntriesOf (stepRecords 4 ⟨2, [30, 40, 50]⟩)).count (3, 30) = 1 ∧
    (FeedRecord.rollbackRec 3 ∈ stepRecords 4 ⟨2, [30, 40, 50]⟩ ↔ (2 ≤ 3 ∧ 3 < 4)) :=
  have h := c7_feed_emission 4 ⟨2, [30, 40, 50]⟩
  ⟨(h.2.2.2.1 (3, 30) (by decide)).1, (h.2.2.2.1 (3, 30) (by decide)).2,
   h.2.2.2.2.1 3⟩
